import Mathlib

/-!
Shallow embedding, in Lean 4, of the Python functions defined in the
instructional notebooks of this repository (sets, tuples, dictionaries,
itertools, function arguments, closures, lambdas), together with proofs of
the behavioural properties claimed for them.

Python data is modelled as follows: unbounded Python `int` as `Int`,
`str` as `String`, `bool` as `Bool`, `set[str]` as `Finset String`,
`dict` as an association list with unique keys looked up by decidable
equality, and heap-allocated mutable objects (lists that functions may
append to) as cells of an explicit store threaded through the embedded
function, where an address is an index into the store.
-/

/-- Python values occurring in the notebook demonstrations: strings,
unbounded integers, booleans and `None`. -/
inductive PyVal where
  | str (s : String)
  | int (n : Int)
  | bool (b : Bool)
  | none
  deriving DecidableEq, Repr

/-- How a Python value renders inside an f-string: `str` renders as its
contents, `True`/`False`/`None` as those words, ints in decimal. -/
def PyVal.render : PyVal → String
  | .str s => s
  | .int n => toString n
  | .bool true => "True"
  | .bool false => "False"
  | .none => "None"

/-- Association-list lookup by decidable equality: the Python `dict`
lookup, with the invariant (maintained by `dict`) that keys are unique. -/
def pyLookup {κ β : Type} [DecidableEq κ] : List (κ × β) → κ → Option β
  | [], _ => Option.none
  | (k, v) :: m, k' => if k' = k then some v else pyLookup m k'

/-! ### `compare_features` (04-Sets.ipynb)

```python
def compare_features(version1_features, version2_features):
    set_v1 = set(version1_features)
    set_v2 = set(version2_features)
    common_features = set_v1.intersection(set_v2)
    unique_to_v1 = set_v1.difference(set_v2)
    unique_to_v2 = set_v2.difference(set_v1)
    return common_features, unique_to_v1, unique_to_v2
```
`set(xs)` is `List.toFinset`, `intersection` is `∩`, `difference` is `\`. -/

def compare_features (version1_features version2_features : List String) :
    Finset String × Finset String × Finset String :=
  let set_v1 : Finset String := version1_features.toFinset
  let set_v2 : Finset String := version2_features.toFinset
  let common_features : Finset String := set_v1 ∩ set_v2
  let unique_to_v1 : Finset String := set_v1 \ set_v2
  let unique_to_v2 : Finset String := set_v2 \ set_v1
  (common_features, unique_to_v1, unique_to_v2)

/-- C1: for all lists of strings `v1`, `v2`, `compare_features v1 v2` is the
triple `(common, unique1, unique2)` where a string is in `common` iff it
occurs in both lists, in `unique1` iff it occurs in `v1` but not `v2`, in
`unique2` iff it occurs in `v2` but not `v1`; and the triple is exactly
`(set v1 ∩ set v2, set v1 \ set v2, set v2 \ set v1)`. -/
theorem compare_features_spec (v1 v2 : List String) (s : String) :
    (s ∈ (compare_features v1 v2).1 ↔ s ∈ v1 ∧ s ∈ v2) ∧
    (s ∈ (compare_features v1 v2).2.1 ↔ s ∈ v1 ∧ s ∉ v2) ∧
    (s ∈ (compare_features v1 v2).2.2 ↔ s ∈ v2 ∧ s ∉ v1) ∧
    compare_features v1 v2 =
      (v1.toFinset ∩ v2.toFinset, v1.toFinset \ v2.toFinset,
        v2.toFinset \ v1.toFinset) := by
  refine ⟨?_, ?_, ?_, rfl⟩ <;>
    simp [compare_features, Finset.mem_inter, Finset.mem_sdiff,
      List.mem_toFinset]

/-! ### Closures (`make_adder`, `make_multiplier`)

```python
def make_adder(n):
    def adder(x):
        return x + n
    return adder

def make_multiplier(n):
    return lambda x: x * n
```
-/

def make_adder (n : Int) : Int → Int :=
  fun x => x + n

def make_multiplier (n : Int) : Int → Int :=
  fun x => x * n

/-- C7: the closure factories capture their argument: `make_adder n x = x + n`
and `make_multiplier n x = x * n` for all integers, and the two closures
`make_adder 5` and `make_adder 100` of the demonstration each keep their own
captured value, so at every argument they add their own `n`. -/
theorem closures_spec :
    (∀ n x : Int, make_adder n x = x + n) ∧
    (∀ n x : Int, make_multiplier n x = x * n) ∧
    (∀ x : Int, make_adder 5 x = x + 5 ∧ make_adder 100 x = x + 100) ∧
    (∀ n m : Int, ∀ x : Int,
      make_multiplier n x = x * n ∧ make_multiplier m x = x * m) := by
  refine ⟨fun n x => rfl, fun n x => rfl, fun x => ⟨rfl, rfl⟩,
    fun n m x => ⟨rfl, rfl⟩⟩

/-! ### Conditional formatting (map/lambda vs list comprehension)

```python
formatted_list = list(map(lambda x: f"{x} (even)" if x % 2 == 0
                          else f"{x} (odd)", numbers_to_format))
formatted_lc = [f"{x} (even)" if x % 2 == 0 else f"{x} (odd)"
                for x in numbers_to_format]
```
Python `%` on `int` returns a non-negative remainder for a positive modulus,
as `Int.emod` (Lean `%`) does; `f"{x}"` renders the integer in decimal, as
`toString : Int → String` does. `map` is `List.map`; the comprehension is
modelled by structural recursion over the list. -/

def fmtEvenOdd (x : Int) : String :=
  if x % 2 = 0 then toString x ++ " (even)" else toString x ++ " (odd)"

def formatted_map (xs : List Int) : List String :=
  xs.map fmtEvenOdd

def formatted_lc : List Int → List String
  | [] => []
  | x :: xs => fmtEvenOdd x :: formatted_lc xs

/-- C8: the map/lambda pipeline and the list comprehension agree on every
list of integers; each element of the result is the decimal rendering of the
corresponding input element followed by " (even)" exactly when it is even
and by " (odd)" otherwise; and on the notebook's list `[10, 3, 8, 9, 4]`
both produce the printed output. -/
theorem formatted_equiv :
    (∀ xs : List Int, formatted_map xs = formatted_lc xs) ∧
    (∀ xs : List Int, formatted_map xs =
      xs.map (fun x => toString x ++
        (if x % 2 = 0 then " (even)" else " (odd)"))) ∧
    formatted_map [10, 3, 8, 9, 4] =
      ["10 (even)", "3 (odd)", "8 (even)", "9 (odd)", "4 (even)"] := by
  refine ⟨?_, ?_, by decide⟩
  · intro xs
    induction xs with
    | nil => rfl
    | cons x xs ih => simp [formatted_map, formatted_lc] at ih ⊢; exact ih
  · intro xs
    simp only [formatted_map]
    refine List.map_congr_left fun x _ => ?_
    by_cases h : x % 2 = 0 <;> simp [fmtEvenOdd, h]

/-! ### `generate_pairings` (01-Itertools.ipynb)

```python
def generate_pairings(teams):
    if len(teams) < 2:
        return []
    pairings_iterator = combinations(teams, 2)
    return list(pairings_iterator)
```
`itertools.combinations(l, 2)` yields, for each position `i` in `l` in
order, the pairs `(l[i], l[j])` for each later position `j` in order; this
is the structural recursion `combinations2` below. -/

def combinations2 {α : Type} : List α → List (α × α)
  | [] => []
  | x :: xs => (xs.map fun y => (x, y)) ++ combinations2 xs

def generate_pairings (teams : List String) : List (String × String) :=
  if teams.length < 2 then [] else combinations2 teams

theorem combinations2_mem_fst {α : Type} {l : List α} {p : α × α}
    (h : p ∈ combinations2 l) : p.1 ∈ l ∧ p.2 ∈ l := by
  induction l with
  | nil => simp [combinations2] at h
  | cons x xs ih =>
    simp only [combinations2, List.mem_append, List.mem_map] at h
    rcases h with ⟨y, hy, rfl⟩ | h
    · exact ⟨List.mem_cons_self x xs, List.mem_cons_of_mem x hy⟩
    · exact ⟨List.mem_cons_of_mem x (ih h).1, List.mem_cons_of_mem x (ih h).2⟩

theorem mem_combinations2 {α : Type} {l : List α} {a b : α} :
    (a, b) ∈ combinations2 l ↔
      ∃ (i j : Nat) (hi : i < l.length) (hj : j < l.length),
        i < j ∧ l[i] = a ∧ l[j] = b := by
  induction l with
  | nil =>
    simp only [combinations2, List.not_mem_nil, false_iff]
    rintro ⟨i, j, hi, hj, -⟩
    exact absurd hj (by simp)
  | cons x xs ih =>
    simp only [combinations2, List.mem_append, List.mem_map, ih]
    constructor
    · rintro (⟨y, hy, hxy⟩ | ⟨i, j, hi, hj, hij, ha, hb⟩)
      · obtain ⟨rfl, rfl⟩ := Prod.mk.injEq x y a b ▸ hxy
        obtain ⟨j, hj, rfl⟩ := List.mem_iff_getElem.mp hy
        exact ⟨0, j + 1, by simp, by simpa using Nat.succ_lt_succ hj,
          Nat.succ_pos j, rfl, by simp⟩
      · exact ⟨i + 1, j + 1, by simpa using Nat.succ_lt_succ hi,
          by simpa using Nat.succ_lt_succ hj, Nat.succ_lt_succ hij,
          by simpa using ha, by simpa using hb⟩
    · rintro ⟨i, j, hi, hj, hij, ha, hb⟩
      match j, hj with
      | j + 1, hj =>
        match i, hi with
        | 0, hi =>
          refine Or.inl ⟨b, ?_, ?_⟩
          · rw [← hb]; simp
          · simp at ha; rw [ha]
        | i + 1, hi =>
          refine Or.inr ⟨i, j, by simpa using hi, by simpa using hj,
            Nat.lt_of_succ_lt_succ hij, by simpa using ha, by simpa using hb⟩

theorem combinations2_length {α : Type} (l : List α) :
    (combinations2 l).length = l.length.choose 2 := by
  induction l with
  | nil => rfl
  | cons x xs ih =>
    simp only [combinations2, List.length_append, List.length_map, ih,
      List.length_cons]
    rw [Nat.choose_succ_succ, Nat.choose_one_right]

theorem combinations2_nodup {α : Type} [DecidableEq α] {l : List α}
    (h : l.Nodup) : (combinations2 l).Nodup := by
  induction l with
  | nil => exact List.nodup_nil
  | cons x xs ih =>
    rw [List.nodup_cons] at h
    refine List.nodup_append.mpr ⟨?_, ih h.2, ?_⟩
    · exact h.2.map (fun a b hab => by simpa using hab)
    · intro p hp hq
      obtain ⟨y, hy, rfl⟩ := List.mem_map.mp hp
      exact h.1 (combinations2_mem_fst hq).1

theorem combinations2_pairwise {α : Type} {R : α → α → Prop} {l : List α}
    (h : l.Pairwise R) :
    (combinations2 l).Pairwise
      (fun p q => R p.1 q.1 ∨ (p.1 = q.1 ∧ R p.2 q.2)) := by
  induction l with
  | nil => exact List.Pairwise.nil
  | cons x xs ih =>
    rw [List.pairwise_cons] at h
    refine List.pairwise_append.mpr ⟨?_, ih h.2, ?_⟩
    · rw [List.pairwise_map]
      exact h.2.imp fun hab => Or.inr ⟨rfl, hab⟩
    · intro p hp q hq
      obtain ⟨y, hy, rfl⟩ := List.mem_map.mp hp
      exact Or.inl (h.1 q.1 (combinations2_mem_fst hq).1)

theorem count_eq_one_of_nodup_mem {α : Type} [BEq α] [LawfulBEq α]
    {l : List α} {a : α} (h : l.Nodup) (ha : a ∈ l) : l.count a = 1 := by
  induction l with
  | nil => simp at ha
  | cons x xs ih =>
    rw [List.nodup_cons] at h
    rcases List.mem_cons.mp ha with rfl | hmem
    · rw [List.count_cons_self, List.count_eq_zero.mpr h.1]
    · rw [List.count_cons_of_ne, ih h.2 hmem]
      rintro rfl
      exact h.1 hmem

theorem generate_pairings_eq (teams : List String) :
    generate_pairings teams = combinations2 teams := by
  match teams with
  | [] => rfl
  | [x] => rfl
  | x :: y :: rest => simp [generate_pairings]

/-- The full behavioural specification of `generate_pairings` claimed for
lists of pairwise-distinct teams: empty result below two teams, each
index pair `i < j` contributing its team pair exactly once, only such
pairs occurring, no pair occurring in both orders, length `n*(n-1)/2`,
and the output sorted lexicographically by the indices of the teams. -/
def PairingsSpec (teams : List String) : Prop :=
  (teams.length < 2 → generate_pairings teams = []) ∧
  (∀ (i j : Nat) (hi : i < teams.length) (hj : j < teams.length), i < j →
    (generate_pairings teams).count (teams[i], teams[j]) = 1) ∧
  (∀ p ∈ generate_pairings teams,
    ∃ (i j : Nat) (hi : i < teams.length) (hj : j < teams.length),
      i < j ∧ p = (teams[i], teams[j])) ∧
  (∀ a b : String, (a, b) ∈ generate_pairings teams →
    (b, a) ∉ generate_pairings teams) ∧
  (generate_pairings teams).length =
    teams.length * (teams.length - 1) / 2 ∧
  (generate_pairings teams).Pairwise (fun p q =>
    teams.indexOf p.1 < teams.indexOf q.1 ∨
      (teams.indexOf p.1 = teams.indexOf q.1 ∧
        teams.indexOf p.2 < teams.indexOf q.2))

/-- C2: for every list of pairwise-distinct teams, `generate_pairings`
returns `[]` below two teams and otherwise exactly the 2-element
combinations in `itertools.combinations` order: every pair
`(teams[i], teams[j])` with `i < j` exactly once, in lexicographic index
order, with `n*(n-1)/2` pairs in total and no pair in both orders. -/
theorem generate_pairings_spec (teams : List String) (hnd : teams.Nodup) :
    PairingsSpec teams := by
  rw [PairingsSpec, generate_pairings_eq]
  refine ⟨?_, ?_, ?_, ?_, ?_, ?_⟩
  · intro hlt
    match teams, hlt with
    | [], _ => rfl
    | [x], _ => rfl
  · intro i j hi hj hij
    refine count_eq_one_of_nodup_mem (combinations2_nodup hnd) ?_
    exact mem_combinations2.mpr ⟨i, j, hi, hj, hij, rfl, rfl⟩
  · intro p hp
    obtain ⟨i, j, hi, hj, hij, ha, hb⟩ := mem_combinations2.mp hp
    exact ⟨i, j, hi, hj, hij, by rw [ha, hb]⟩
  · intro a b hab hba
    obtain ⟨i, j, hi, hj, hij, ha, hb⟩ := mem_combinations2.mp hab
    obtain ⟨i', j', hi', hj', hij', hb', ha'⟩ := mem_combinations2.mp hba
    have h1 : i = j' := (hnd.getElem_inj_iff).mp (ha.trans ha'.symm)
    have h2 : j = i' := (hnd.getElem_inj_iff).mp (hb.trans hb'.symm)
    omega
  · rw [combinations2_length, Nat.choose_two_right]
  · have hpw : teams.Pairwise
        (fun a b => teams.indexOf a < teams.indexOf b) := by
      rw [List.pairwise_iff_getElem]
      intro i j hi hj hij
      rw [List.indexOf_getElem hnd i hi, List.indexOf_getElem hnd j hj]
      exact hij
    refine (combinations2_pairwise hpw).imp ?_
    rintro p q (h | ⟨heq, h⟩)
    · exact Or.inl h
    · exact Or.inr ⟨by rw [heq], h⟩

/-- Witness: the notebook's team list is pairwise distinct and
`generate_pairings` meets the specification on it. -/
theorem generate_pairings_spec_witness :
    (["Eagles", "Sharks", "Lions", "Bears"] : List String).Nodup ∧
    PairingsSpec ["Eagles", "Sharks", "Lions", "Bears"] :=
  ⟨by decide, generate_pairings_spec _ (by decide)⟩

/-! ### Dictionary access (03-Dictionary.ipynb)

```python
settings = {"theme": "dark", "fontSize": 12, "autosave": True}
current_theme = settings["theme"]
try:
    font_family = settings["fontFamily"]
except KeyError as e:
    print(f"Error accessing non-existent key with []: {e}\n")
font_size = settings.get("fontSize")
font_family = settings.get("fontFamily")
font_family_defaulted = settings.get("fontFamily", "Monospace")
```
`d[k]` raises `KeyError` (modelled as `Except.error` carrying `str(e)`,
which for a `KeyError` is the `repr` of the key) when the key is absent;
`d.get(k)` is `d.get(k, None)`. The demonstration cell is modelled as a
function from nothing to the list of printed strings, `Except`-valued so
that an uncaught `KeyError` would surface as `.error`. -/

def settings : List (String × PyVal) :=
  [("theme", PyVal.str "dark"), ("fontSize", PyVal.int 12),
    ("autosave", PyVal.bool true)]

def dictGetItem (d : List (String × PyVal)) (k : String) :
    Except String PyVal :=
  match pyLookup d k with
  | some v => .ok v
  | Option.none => .error ("'" ++ k ++ "'")

def dictGetD (d : List (String × PyVal)) (k : String) (dflt : PyVal) :
    PyVal :=
  (pyLookup d k).getD dflt

def dictGet (d : List (String × PyVal)) (k : String) : PyVal :=
  dictGetD d k PyVal.none

def demoCell : Except String (List String) :=
  match dictGetItem settings "theme" with
  | .error e => .error e
  | .ok current_theme =>
    let line1 := "Access with []: Theme = " ++ current_theme.render
    let tryLines :=
      match dictGetItem settings "fontFamily" with
      | .ok _ => []
      | .error e =>
        ["Error accessing non-existent key with []: " ++ e ++ "\n"]
    let line3 := "Access with .get(): Font Size = " ++
      (dictGet settings "fontSize").render
    let line4 := "Access with .get() (key missing): Font Family = " ++
      (dictGet settings "fontFamily").render
    let line5 := "Access with .get() (defaulted): Font Family = " ++
      (dictGetD settings "fontFamily" (PyVal.str "Monospace")).render
    .ok ([line1] ++ tryLines ++ [line3, line4, line5])

theorem pyLookup_eq_none {κ β : Type} [DecidableEq κ]
    (d : List (κ × β)) (k : κ) :
    pyLookup d k = Option.none ↔ k ∉ d.map Prod.fst := by
  induction d with
  | nil => simp [pyLookup]
  | cons p m ih =>
    obtain ⟨a, b⟩ := p
    by_cases h : k = a <;> simp [pyLookup, h, ih]

theorem pyLookup_eq_some_of_mem {κ β : Type} [DecidableEq κ]
    {d : List (κ × β)} {k : κ} {v : β}
    (hnd : (d.map Prod.fst).Nodup) (hmem : (k, v) ∈ d) :
    pyLookup d k = some v := by
  induction d with
  | nil => simp at hmem
  | cons p m ih =>
    obtain ⟨a, b⟩ := p
    rw [List.map_cons, List.nodup_cons] at hnd
    rcases List.mem_cons.mp hmem with heq | hmem2
    · obtain ⟨rfl, rfl⟩ := Prod.mk.injEq a b k v ▸ heq.symm
      simp [pyLookup]
    · have hk : k ≠ a := by
        rintro rfl
        exact hnd.1 (List.mem_map.mpr ⟨(k, v), hmem2, rfl⟩)
      simpa [pyLookup, hk] using ih hnd.2 hmem2

/-- C4: for every dictionary `d` and key `k`, `d[k]` raises `KeyError`
exactly when `k` is not a key of `d`; `d.get k` returns the associated
value when `k` is present (keys being unique) and `None` when absent;
`d.get k default` returns `default` when `k` is absent; and the
demonstration cell catches the `KeyError` inline, so it evaluates to its
five printed lines rather than propagating an exception. -/
theorem dict_access_spec (d : List (String × PyVal)) (k : String) :
    ((∃ e, dictGetItem d k = .error e) ↔ k ∉ d.map Prod.fst) ∧
    ((d.map Prod.fst).Nodup → ∀ v, (k, v) ∈ d → dictGet d k = v) ∧
    (k ∉ d.map Prod.fst → dictGet d k = PyVal.none) ∧
    (∀ dflt, k ∉ d.map Prod.fst → dictGetD d k dflt = dflt) ∧
    demoCell = .ok
      ["Access with []: Theme = dark",
        "Error accessing non-existent key with []: 'fontFamily'\n",
        "Access with .get(): Font Size = 12",
        "Access with .get() (key missing): Font Family = None",
        "Access with .get() (defaulted): Font Family = Monospace"] := by
  refine ⟨?_, ?_, ?_, ?_, rfl⟩
  · rw [← pyLookup_eq_none]
    cases hl : pyLookup d k with
    | none => simp [dictGetItem, hl]
    | some v => simp [dictGetItem, hl]
  · intro hnd v hv
    simp [dictGet, dictGetD, pyLookup_eq_some_of_mem hnd hv]
  · intro h
    simp [dictGet, dictGetD, (pyLookup_eq_none d k).mpr h]
  · intro dflt h
    simp [dictGetD, (pyLookup_eq_none d k).mpr h]

/-- Witness: the demonstration dictionary `settings` realises the three
`.get` behaviours of the claim at the keys the notebook uses. -/
theorem dict_access_spec_witness :
    dictGet settings "fontFamily" = PyVal.none ∧
    dictGetD settings "fontFamily" (PyVal.str "Monospace") =
      PyVal.str "Monospace" ∧
    dictGet settings "fontSize" = PyVal.int 12 :=
  ⟨(dict_access_spec settings "fontFamily").2.2.1 (by decide),
    (dict_access_spec settings "fontFamily").2.2.2.1
      (PyVal.str "Monospace") (by decide),
    (dict_access_spec settings "fontSize").2.1 (by decide)
      (PyVal.int 12) (by decide)⟩

/-! ### `create_user` (keyword-only arguments)

```python
def create_user(*, user_id, name, is_active=True):
    return {"id": user_id, "name": name, "active": is_active}
```
A Python call site is modelled as the list of positional arguments plus
the keyword-argument mapping; binding follows Python's rules for a bare
`*`: any positional argument is a `TypeError`, unknown keywords are a
`TypeError`, the required keyword-only arguments `user_id` and `name`
must be present, and `is_active` defaults to `True`. -/

structure CallArgs where
  pos : List PyVal
  kw : List (String × PyVal)

def create_user_call (args : CallArgs) : Except String (List (String × PyVal)) :=
  if args.pos.length ≠ 0 then
    .error ("create_user() takes 0 positional arguments but " ++
      toString args.pos.length ++ " were given")
  else if ∀ p ∈ args.kw, p.1 = "user_id" ∨ p.1 = "name" ∨ p.1 = "is_active" then
    match pyLookup args.kw "user_id", pyLookup args.kw "name" with
    | some user_id, some name =>
      .ok [("id", user_id), ("name", name),
        ("active", (pyLookup args.kw "is_active").getD (PyVal.bool true))]
    | _, _ => .error "create_user() missing required keyword-only arguments"
  else .error "create_user() got an unexpected keyword argument"

/-- C5: `create_user` accepts only keyword arguments: with `user_id` and
`name` passed by keyword it returns the dictionary
`{"id": user_id, "name": name, "active": is_active}` with `is_active`
defaulting to `True` when omitted, and every call passing any argument
positionally raises `TypeError`; the notebook's positional call
`create_user(103, "Charlie")` is such a call. -/
theorem create_user_spec :
    (∀ user_id name : PyVal,
      create_user_call ⟨[], [("user_id", user_id), ("name", name)]⟩ =
        .ok [("id", user_id), ("name", name), ("active", PyVal.bool true)]) ∧
    (∀ user_id name is_active : PyVal,
      create_user_call
          ⟨[], [("user_id", user_id), ("name", name),
            ("is_active", is_active)]⟩ =
        .ok [("id", user_id), ("name", name), ("active", is_active)]) ∧
    (∀ args : CallArgs, args.pos ≠ [] →
      ∃ e, create_user_call args = .error e) ∧
    (∃ e, create_user_call
        ⟨[PyVal.int 103, PyVal.str "Charlie"], []⟩ = .error e) := by
  refine ⟨?_, ?_, ?_, ?_⟩
  · intro user_id name
    simp [create_user_call, pyLookup]
  · intro user_id name is_active
    simp [create_user_call, pyLookup]
  · rintro ⟨pos, kw⟩ h
    simp only [create_user_call]
    rw [if_pos (by simpa [List.length_eq_zero] using h)]
    exact ⟨_, rfl⟩
  · exact ⟨_, rfl⟩

/-- Witness: the notebook's valid keyword call and its rejected positional
call behave as specified. -/
theorem create_user_spec_witness :
    create_user_call
        ⟨[], [("user_id", PyVal.int 101), ("name", PyVal.str "Alice")]⟩ =
      .ok [("id", PyVal.int 101), ("name", PyVal.str "Alice"),
        ("active", PyVal.bool true)] ∧
    (∃ e, create_user_call
        ⟨[PyVal.int 103, PyVal.str "Charlie"], []⟩ = .error e) :=
  ⟨create_user_spec.1 (PyVal.int 101) (PyVal.str "Alice"),
    create_user_spec.2.2.1 ⟨[PyVal.int 103, PyVal.str "Charlie"], []⟩
      (by decide)⟩

/-! ### `analyze_logs` (03-Dictionary.ipynb)

```python
def analyze_logs(logs):
    level_counts = defaultdict(int)
    for entry in logs:
        level = entry.get("level", "UNKNOWN")
        level_counts[level] += 1
    return dict(level_counts)
```
A `defaultdict(int)` increment either bumps the value at an existing key
in place (keeping insertion order) or appends the key at the end with
count 1; `entry.get("level", "UNKNOWN")` falls back to the string
"UNKNOWN" when the entry has no "level" key. -/

def entryLevel (entry : List (String × PyVal)) : PyVal :=
  (pyLookup entry "level").getD (PyVal.str "UNKNOWN")

def bumpCount : List (PyVal × Nat) → PyVal → List (PyVal × Nat)
  | [], k => [(k, 1)]
  | (k', c) :: rest, k =>
    if k' = k then (k', c + 1) :: rest else (k', c) :: bumpCount rest k

def analyze_logs (logs : List (List (String × PyVal))) : List (PyVal × Nat) :=
  logs.foldl (fun level_counts entry =>
    bumpCount level_counts (entryLevel entry)) []

/-- The number of log entries whose (defaulted) level is `lvl`. -/
def countLevel : List (List (String × PyVal)) → PyVal → Nat
  | [], _ => 0
  | entry :: rest, lvl =>
    (if entryLevel entry = lvl then 1 else 0) + countLevel rest lvl

theorem bumpCount_lookup_self (m : List (PyVal × Nat)) (k : PyVal) :
    pyLookup (bumpCount m k) k = some ((pyLookup m k).getD 0 + 1) := by
  induction m with
  | nil => simp [bumpCount, pyLookup]
  | cons p rest ih =>
    obtain ⟨k', c⟩ := p
    by_cases h : k' = k
    · subst h
      simp [bumpCount, pyLookup]
    · simp [bumpCount, pyLookup, h, Ne.symm h, ih]

theorem bumpCount_lookup_ne (m : List (PyVal × Nat)) (k k' : PyVal)
    (h : k' ≠ k) : pyLookup (bumpCount m k) k' = pyLookup m k' := by
  induction m with
  | nil => simp [bumpCount, pyLookup, h]
  | cons p rest ih =>
    obtain ⟨a, c⟩ := p
    by_cases ha : a = k
    · subst ha
      simp [bumpCount, pyLookup, h]
    · by_cases hk : k' = a <;> simp [bumpCount, pyLookup, ha, hk, ih]

theorem bumpCount_sum (m : List (PyVal × Nat)) (k : PyVal) :
    ((bumpCount m k).map Prod.snd).sum = ((m.map Prod.snd).sum) + 1 := by
  induction m with
  | nil => simp [bumpCount]
  | cons p rest ih =>
    obtain ⟨a, c⟩ := p
    by_cases ha : a = k <;> simp [bumpCount, ha, ih] <;> omega

theorem bumpCount_pos (m : List (PyVal × Nat)) (k : PyVal)
    (h : ∀ p ∈ m, p.2 ≠ 0) : ∀ p ∈ bumpCount m k, p.2 ≠ 0 := by
  induction m with
  | nil =>
    intro p hp
    simp [bumpCount] at hp
    simp [hp]
  | cons q rest ih =>
    obtain ⟨a, c⟩ := q
    intro p hp
    by_cases ha : a = k
    · subst ha
      simp [bumpCount] at hp
      rcases hp with rfl | hp
      · simp
      · exact h p (List.mem_cons_of_mem _ hp)
    · simp [bumpCount, ha] at hp
      rcases hp with rfl | hp
      · exact h (a, c) (List.mem_cons_self _ _)
      · exact ih (fun q hq => h q (List.mem_cons_of_mem _ hq)) p hp

theorem analyze_loop_getD (logs : List (List (String × PyVal)))
    (lvl : PyVal) :
    ∀ m : List (PyVal × Nat),
      (pyLookup (logs.foldl (fun level_counts entry =>
          bumpCount level_counts (entryLevel entry)) m) lvl).getD 0 =
        (pyLookup m lvl).getD 0 + countLevel logs lvl := by
  induction logs with
  | nil => intro m; simp [countLevel]
  | cons entry rest ih =>
    intro m
    rw [List.foldl_cons, ih]
    by_cases h : entryLevel entry = lvl
    · rw [h, bumpCount_lookup_self]
      simp [countLevel, h]
      omega
    · rw [bumpCount_lookup_ne _ _ _ (fun hh => h hh.symm)]
      simp [countLevel, h]

theorem analyze_loop_none (logs : List (List (String × PyVal)))
    (lvl : PyVal) :
    ∀ m : List (PyVal × Nat),
      (pyLookup (logs.foldl (fun level_counts entry =>
          bumpCount level_counts (entryLevel entry)) m) lvl = Option.none ↔
        (pyLookup m lvl = Option.none ∧ countLevel logs lvl = 0)) := by
  induction logs with
  | nil => intro m; simp [countLevel]
  | cons entry rest ih =>
    intro m
    rw [List.foldl_cons, ih]
    by_cases h : entryLevel entry = lvl
    · rw [h, bumpCount_lookup_self]
      simp [countLevel, h]
    · rw [bumpCount_lookup_ne _ _ _ (fun hh => h hh.symm)]
      simp [countLevel, h]

theorem analyze_loop_sum (logs : List (List (String × PyVal))) :
    ∀ m : List (PyVal × Nat),
      ((logs.foldl (fun level_counts entry =>
          bumpCount level_counts (entryLevel entry)) m).map Prod.snd).sum =
        ((m.map Prod.snd).sum) + logs.length := by
  induction logs with
  | nil => intro m; simp
  | cons entry rest ih =>
    intro m
    rw [List.foldl_cons, ih, bumpCount_sum]
    simp
    omega

theorem analyze_loop_pos (logs : List (List (String × PyVal))) :
    ∀ m : List (PyVal × Nat), (∀ p ∈ m, p.2 ≠ 0) →
      ∀ p ∈ logs.foldl (fun level_counts entry =>
          bumpCount level_counts (entryLevel entry)) m, p.2 ≠ 0 := by
  induction logs with
  | nil => intro m hm; simpa using hm
  | cons entry rest ih =>
    intro m hm
    rw [List.foldl_cons]
    exact ih _ (bumpCount_pos m _ hm)

/-- C10: `analyze_logs` maps each level to the number of entries whose
"level" key holds it, entries without a "level" key counting under
"UNKNOWN": a level is a key of the result exactly when its count is
positive, and then it maps to that count; the counts sum to the length of
the input, and no key of the result maps to 0. -/
theorem analyze_logs_spec (logs : List (List (String × PyVal))) :
    (∀ lvl : PyVal,
      pyLookup (analyze_logs logs) lvl =
        (if countLevel logs lvl = 0 then Option.none
          else some (countLevel logs lvl))) ∧
    ((analyze_logs logs).map Prod.snd).sum = logs.length ∧
    (∀ p ∈ analyze_logs logs, p.2 ≠ 0) := by
  refine ⟨?_, ?_, ?_⟩
  · intro lvl
    have hg := analyze_loop_getD logs lvl []
    have hn := analyze_loop_none logs lvl []
    rw [analyze_logs]
    by_cases h : countLevel logs lvl = 0
    · rw [if_pos h]
      exact hn.mpr ⟨rfl, h⟩
    · rw [if_neg h]
      cases hv : pyLookup (logs.foldl (fun level_counts entry =>
          bumpCount level_counts (entryLevel entry)) []) lvl with
      | none =>
        exact absurd (hn.mp hv).2 h
      | some v =>
        rw [hv] at hg
        simp [pyLookup] at hg
        rw [hg]
  · rw [analyze_logs, analyze_loop_sum logs []]
    simp
  · rw [analyze_logs]
    exact analyze_loop_pos logs [] (by simp)

/-- Witness: on a three-entry log with two INFO entries and one entry
lacking a "level" key, `analyze_logs` reports INFO twice, UNKNOWN once,
and counts summing to 3. -/
theorem analyze_logs_spec_witness :
    pyLookup (analyze_logs
        [[("level", PyVal.str "INFO"), ("message", PyVal.str "a")],
          [("level", PyVal.str "INFO")],
          [("timestamp", PyVal.int 1678886400)]])
      (PyVal.str "INFO") = some 2 ∧
    pyLookup (analyze_logs
        [[("level", PyVal.str "INFO"), ("message", PyVal.str "a")],
          [("level", PyVal.str "INFO")],
          [("timestamp", PyVal.int 1678886400)]])
      (PyVal.str "UNKNOWN") = some 1 ∧
    ((analyze_logs
        [[("level", PyVal.str "INFO"), ("message", PyVal.str "a")],
          [("level", PyVal.str "INFO")],
          [("timestamp", PyVal.int 1678886400)]]).map Prod.snd).sum = 3 := by
  have h := analyze_logs_spec
    [[("level", PyVal.str "INFO"), ("message", PyVal.str "a")],
      [("level", PyVal.str "INFO")],
      [("timestamp", PyVal.int 1678886400)]]
  refine ⟨?_, ?_, ?_⟩
  · rw [h.1 (PyVal.str "INFO")]
    decide
  · rw [h.1 (PyVal.str "UNKNOWN")]
    decide
  · rw [h.2.1]
    decide

/-! ### Mutable default arguments (`add_item_bad` / `add_item_good`)

```python
def add_item_bad(item, target_list=[]):   # default list built once, at def
    target_list.append(item)
    return target_list

def add_item_good(item, target_list=None):
    if target_list is None:
        target_list = []                  # a new list on every such call
    target_list.append(item)
    return target_list
```
Mutable Python lists live in an explicit store (a list of list-objects,
an address being an index); `alloc` appends a new object, `write`
replaces the object at an address. `add_item_bad`'s default list is the
object `defaultAddr` allocated once when the `def` executes; a call
without `target_list` appends to that same object. `add_item_good`
allocates a fresh list when `target_list` is `None`. Both return the
address of the list they appended to. -/

def alloc {α : Type} (s : List α) (o : α) : List α × Nat :=
  (s ++ [o], s.length)

def write {α : Type} (s : List α) (a : Nat) (o : α) : List α :=
  s.set a o

def add_item_bad (s : List (List String)) (defaultAddr : Nat) (item : String)
    (target_list : Option Nat) : List (List String) × Nat :=
  let a := target_list.getD defaultAddr
  (write s a ((s[a]?).getD [] ++ [item]), a)

def add_item_good (s : List (List String)) (item : String)
    (target_list : Option Nat) : List (List String) × Nat :=
  match target_list with
  | Option.none =>
    let r := alloc s []
    (write r.1 r.2 ((r.1[r.2]?).getD [] ++ [item]), r.2)
  | some a => (write s a ((s[a]?).getD [] ++ [item]), a)

/-- C9: in any store, `add_item_good` called without a list argument
allocates a fresh one-element list `[item]`, whatever calls came before;
`add_item_bad` called twice without a list argument (the default list
having been allocated once, when the `def` ran) returns the same address
both times, and after the second call that shared object holds both
items. -/
theorem default_argument_spec (s : List (List String)) (x y : String) :
    ((add_item_good s x Option.none).2 = s.length ∧
      ((add_item_good s x Option.none).1)[s.length]? = some [x]) ∧
    ((add_item_bad (s ++ [[]]) s.length x Option.none).2 = s.length ∧
      (add_item_bad ((add_item_bad (s ++ [[]]) s.length x Option.none).1)
          s.length y Option.none).2 = s.length ∧
      ((add_item_bad ((add_item_bad (s ++ [[]]) s.length x Option.none).1)
          s.length y Option.none).1)[s.length]? = some [x, y]) := by
  have hlen : (s ++ [([] : List String)])[s.length]? = some [] :=
    List.getElem?_concat_length s []
  have hlt : s.length < (s ++ [([] : List String)]).length := by
    simp
  refine ⟨⟨rfl, ?_⟩, rfl, ?_, ?_⟩
  · simp only [add_item_good, alloc, write]
    rw [hlen]
    simp
  · rfl
  · simp only [add_item_bad, write, Option.getD]
    rw [hlen]
    have h1 : ((s ++ [[]]).set s.length ([] ++ [x]))[s.length]? =
        some ([] ++ [x]) :=
      List.getElem?_set_eq_of_lt ([] ++ [x]) hlt
    rw [h1]
    have hlt2 : s.length < ((s ++ [[]]).set s.length ([] ++ [x])).length := by
      simp only [List.length_set]
      exact hlt
    simp

/-! ### Frame behaviour of the challenge functions

Each challenge reference function is embedded a second time against the
explicit store, with every Python object it touches (its arguments and
the collections it builds) living at a store address: `set(...)`,
`list(...)`, `[]` and `defaultdict(int)` allocate, `.append` and
`level_counts[level] += 1` write to the address of the object they
mutate. The frame claims are then statements about which addresses of
the store a call can change. `float` scores are modelled as rationals;
only their ordering matters to `filter_passing_students`. -/

theorem getElem?_append_lt {α : Type} (s t : List α) (a : Nat)
    (h : a < s.length) : (s ++ t)[a]? = s[a]? :=
  List.getElem?_append_left h

inductive SetObj where
  | slist (l : List String)
  | sset (f : Finset String)

def readList (s : List SetObj) (a : Nat) : List String :=
  match s[a]? with
  | some (.slist l) => l
  | _ => []

def compare_features_st (s : List SetObj) (v1A v2A : Nat) :
    List SetObj × Nat × Nat × Nat :=
  let set_v1 := (readList s v1A).toFinset
  let set_v2 := (readList s v2A).toFinset
  let r1 := alloc s (SetObj.sset set_v1)
  let r2 := alloc r1.1 (SetObj.sset set_v2)
  let r3 := alloc r2.1 (SetObj.sset (set_v1 ∩ set_v2))
  let r4 := alloc r3.1 (SetObj.sset (set_v1 \ set_v2))
  let r5 := alloc r4.1 (SetObj.sset (set_v2 \ set_v1))
  (r5.1, r3.2, r4.2, r5.2)

abbrev Student := String × Int × Rat

def readStudents (s : List (List Student)) (a : Nat) : List Student :=
  (s[a]?).getD []

def filter_passing_students_st (s : List (List Student)) (studentsA : Nat)
    (passing_grade : Rat) : List (List Student) × Nat :=
  let students := readStudents s studentsA
  let r := alloc s []
  let s2 := students.foldl
    (fun st student_tuple =>
      if student_tuple.2.2 ≥ passing_grade then
        write st r.2 ((st[r.2]?).getD [] ++ [student_tuple])
      else st) r.1
  (s2, r.2)

inductive LogObj where
  | dictO (d : List (String × PyVal))
  | listO (addrs : List Nat)
  | countsO (m : List (PyVal × Nat))

def readDict (s : List LogObj) (a : Nat) : List (String × PyVal) :=
  match s[a]? with
  | some (.dictO d) => d
  | _ => []

def readAddrs (s : List LogObj) (a : Nat) : List Nat :=
  match s[a]? with
  | some (.listO l) => l
  | _ => []

def readCounts (s : List LogObj) (a : Nat) : List (PyVal × Nat) :=
  match s[a]? with
  | some (.countsO m) => m
  | _ => []

def analyze_logs_st (s : List LogObj) (logsA : Nat) : List LogObj × Nat :=
  let entryAddrs := readAddrs s logsA
  let r := alloc s (LogObj.countsO [])
  let s2 := entryAddrs.foldl
    (fun st a =>
      write st r.2 (LogObj.countsO
        (bumpCount (readCounts st r.2)
          ((pyLookup (readDict st a) "level").getD
            (PyVal.str "UNKNOWN"))))) r.1
  let r2 := alloc s2 (LogObj.countsO (readCounts s2 r.2))
  (r2.1, r2.2)

theorem filter_loop (g : Rat) (pA : Nat) (students : List Student) :
    ∀ st : List (List Student), pA < st.length →
      ((students.foldl (fun st student_tuple =>
          if student_tuple.2.2 ≥ g then
            write st pA ((st[pA]?).getD [] ++ [student_tuple])
          else st) st).length = st.length) ∧
      (∀ a, a ≠ pA → (students.foldl (fun st student_tuple =>
          if student_tuple.2.2 ≥ g then
            write st pA ((st[pA]?).getD [] ++ [student_tuple])
          else st) st)[a]? = st[a]?) ∧
      ((students.foldl (fun st student_tuple =>
          if student_tuple.2.2 ≥ g then
            write st pA ((st[pA]?).getD [] ++ [student_tuple])
          else st) st)[pA]? =
        some ((st[pA]?).getD [] ++
          students.filter (fun student_tuple => student_tuple.2.2 ≥ g))) := by
  induction students with
  | nil =>
    intro st hp
    refine ⟨rfl, fun a ha => rfl, ?_⟩
    rw [List.getElem?_eq_getElem hp]
    simp
  | cons stu rest ih =>
    intro st hp
    rw [List.foldl_cons]
    by_cases h : stu.2.2 ≥ g
    · rw [if_pos h]
      have hlen : (write st pA ((st[pA]?).getD [] ++ [stu])).length =
          st.length := List.length_set st pA _
      obtain ⟨ih1, ih2, ih3⟩ :=
        ih (write st pA ((st[pA]?).getD [] ++ [stu])) (hlen ▸ hp)
      refine ⟨ih1.trans hlen, ?_, ?_⟩
      · intro a ha
        rw [ih2 a ha]
        exact List.getElem?_set_ne (fun hh => ha hh.symm)
      · rw [ih3, write, List.getElem?_set_eq_of_lt _ hp]
        simp [List.filter_cons, h]
    · rw [if_neg h]
      obtain ⟨ih1, ih2, ih3⟩ := ih st hp
      refine ⟨ih1, ih2, ?_⟩
      rw [ih3]
      simp [List.filter_cons, h]

theorem analyze_st_loop (cA : Nat) (addrsL : List Nat) :
    ∀ st : List LogObj,
      ((addrsL.foldl (fun st a =>
          write st cA (LogObj.countsO
            (bumpCount (readCounts st cA)
              ((pyLookup (readDict st a) "level").getD
                (PyVal.str "UNKNOWN"))))) st).length = st.length) ∧
      (∀ a, a ≠ cA → (addrsL.foldl (fun st a =>
          write st cA (LogObj.countsO
            (bumpCount (readCounts st cA)
              ((pyLookup (readDict st a) "level").getD
                (PyVal.str "UNKNOWN"))))) st)[a]? = st[a]?) := by
  induction addrsL with
  | nil => intro st; exact ⟨rfl, fun a ha => rfl⟩
  | cons addr rest ih =>
    intro st
    rw [List.foldl_cons]
    obtain ⟨ih1, ih2⟩ := ih (write st cA (LogObj.countsO
      (bumpCount (readCounts st cA)
        ((pyLookup (readDict st addr) "level").getD (PyVal.str "UNKNOWN")))))
    refine ⟨ih1.trans (List.length_set st cA _), ?_⟩
    intro a ha
    rw [ih2 a ha]
    exact List.getElem?_set_ne (fun hh => ha hh.symm)

/-- C6: each challenge reference function leaves every pre-existing store
object — in particular its arguments — unchanged, and the collections it
returns are freshly allocated (their addresses did not exist in the
incoming store): `compare_features` builds three fresh sets,
`filter_passing_students` builds the fresh list of exactly the students
with passing scores, and `analyze_logs` builds a fresh counts
dictionary. -/
theorem challenge_frame_spec :
    (∀ (s : List SetObj) (v1A v2A : Nat),
      (∀ a, a < s.length →
        (compare_features_st s v1A v2A).1[a]? = s[a]?) ∧
      s.length ≤ (compare_features_st s v1A v2A).2.1 ∧
      s.length ≤ (compare_features_st s v1A v2A).2.2.1 ∧
      s.length ≤ (compare_features_st s v1A v2A).2.2.2) ∧
    (∀ (s : List (List Student)) (studentsA : Nat) (g : Rat),
      (∀ a, a < s.length →
        (filter_passing_students_st s studentsA g).1[a]? = s[a]?) ∧
      (filter_passing_students_st s studentsA g).2 = s.length ∧
      (filter_passing_students_st s studentsA g).1[s.length]? =
        some ((readStudents s studentsA).filter
          (fun student_tuple => student_tuple.2.2 ≥ g))) ∧
    (∀ (s : List LogObj) (logsA : Nat),
      (∀ a, a < s.length → (analyze_logs_st s logsA).1[a]? = s[a]?) ∧
      s.length ≤ (analyze_logs_st s logsA).2) := by
  refine ⟨?_, ?_, ?_⟩
  · intro s v1A v2A
    refine ⟨?_, by simp [compare_features_st, alloc],
      by simp [compare_features_st, alloc],
      by simp [compare_features_st, alloc]⟩
    intro a ha
    simp only [compare_features_st, alloc]
    rw [getElem?_append_lt _ _ _ (by simp; omega),
      getElem?_append_lt _ _ _ (by simp; omega),
      getElem?_append_lt _ _ _ (by simp; omega),
      getElem?_append_lt _ _ _ (by simp; omega),
      getElem?_append_lt _ _ _ ha]
  · intro s studentsA g
    have hp : s.length < (s ++ [([] : List Student)]).length := by simp
    obtain ⟨h1, h2, h3⟩ := filter_loop g s.length (readStudents s studentsA)
      (s ++ [[]]) hp
    refine ⟨?_, rfl, ?_⟩
    · intro a ha
      simp only [filter_passing_students_st, alloc]
      rw [h2 a (Nat.ne_of_lt ha)]
      exact getElem?_append_lt _ _ _ ha
    · simp only [filter_passing_students_st, alloc]
      rw [h3, List.getElem?_concat_length]
      simp
  · intro s logsA
    obtain ⟨h1, h2⟩ := analyze_st_loop s.length (readAddrs s logsA)
      (s ++ [LogObj.countsO []])
    have hlen : (s ++ [LogObj.countsO []]).length = s.length + 1 := by simp
    refine ⟨?_, ?_⟩
    · intro a ha
      simp only [analyze_logs_st, alloc]
      rw [getElem?_append_lt _ _ _ (by rw [h1, hlen]; omega)]
      rw [h2 a (Nat.ne_of_lt ha)]
      exact getElem?_append_lt _ _ _ ha
    · simp only [analyze_logs_st, alloc]
      rw [h1, hlen]
      omega

/-- Witness: on concrete two-object stores, each embedded challenge
function leaves the store cell holding its argument exactly as it was. -/
theorem challenge_frame_spec_witness :
    (compare_features_st [SetObj.slist ["login"], SetObj.slist ["search"]]
        0 1).1[0]? = some (SetObj.slist ["login"]) ∧
    (filter_passing_students_st [[("Alice", 101, 88)]] 0 60).1[0]? =
      some [(("Alice", 101, 88) : Student)] ∧
    (analyze_logs_st [LogObj.dictO [("level", PyVal.str "INFO")],
        LogObj.listO [0]] 1).1[1]? = some (LogObj.listO [0]) := by
  refine ⟨?_, ?_, ?_⟩
  · rw [(challenge_frame_spec.1 [SetObj.slist ["login"],
      SetObj.slist ["search"]] 0 1).1 0 (by simp)]
    rfl
  · rw [(challenge_frame_spec.2.1 [[("Alice", 101, 88)]] 0 60).1 0 (by simp)]
    rfl
  · rw [(challenge_frame_spec.2.2 [LogObj.dictO [("level", PyVal.str "INFO")],
      LogObj.listO [0]] 1).1 1 (by simp)]
    rfl
